import Mathlib

/-!
Verification development for the `plist_plus2` crate: a shallow embedding of
the Rust wrapper layer over the foreign `libplist` tree engine.

The embedding models:
* the per-kind wrapper structs generated by `impl_node!` (fields `pointer`,
  `false_drop`) together with the content of the foreign node the pointer
  refers to (read through the per-kind foreign accessors),
* the FFI calls the wrapper layer emits (as an explicit call datatype),
* the container operations of `src/types/array.rs` and
  `src/types/dictionary.rs`, the iterator lifecycle, `Value::replace_with`
  of `src/lib.rs`, the text decode entry points, and the `PartialEq`
  implementations (as a recursive boolean equality on value trees).

Rust panics (`panic!` / `CString::new(..).unwrap()` failures) are modelled as
`Except String` errors carrying the panic message; recoverable errors use the
`Error` enum of `src/error.rs`.
-/

namespace PlistPlus2

/-- The 11 plist node kinds of `NodeType` in `src/types.rs`. -/
inductive NodeType where
  | boolean
  | integer
  | real
  | date
  | data
  | string
  | array
  | dictionary
  | key
  | uid
  | null
deriving DecidableEq, Repr

/-- The content of one foreign node, as read through the per-kind foreign
accessors (`plist_get_bool_val`, `plist_get_uint_val`, ...).  Scalar payloads
are carried; the children of containers are modelled by the separate
container-state lists used by the container operations (a wrapper never holds
its children, it reaches them through FFI calls on its pointer).  `realC`
holds the IEEE-754 binary64 bit pattern, `integerC` the unsigned 64-bit
representation, `dateC` the stored signed 32-bit seconds/microseconds pair. -/
inductive NodeContent where
  | arrayC
  | booleanC (b : Bool)
  | dataC (bytes : List Nat)
  | dateC (sec usec : Int)
  | dictC
  | integerC (bits : Nat)
  | keyC (s : String)
  | nullC
  | realC (bits : Nat)
  | stringC (s : String)
  | uidC (u : Nat)
deriving DecidableEq, Repr

/-- The kind tag the foreign `plist_get_node_type` reports for a node. -/
def NodeContent.kind : NodeContent → NodeType
  | .arrayC => .array
  | .booleanC _ => .boolean
  | .dataC _ => .data
  | .dateC _ _ => .date
  | .dictC => .dictionary
  | .integerC _ => .integer
  | .keyC _ => .key
  | .nullC => .null
  | .realC _ => .real
  | .stringC _ => .string
  | .uidC _ => .uid

/-- `true` exactly for the seven scalar kinds (Boolean, Integer, Real, String,
Data, Date, Uid); `false` for Array, Dictionary, Key and Null. -/
def NodeType.is_scalar : NodeType → Bool
  | .boolean | .integer | .real | .date | .data | .string | .uid => true
  | .array | .dictionary | .key | .null => false

/-- One wrapper value of the crate: any variant of the Rust `Value` enum.
Every variant struct generated by `impl_node!` has exactly the fields
`pointer` and `false_drop`; `content` is the state of the foreign node at
`pointer` (so the variant tag of `Value` is `content.kind`). -/
structure WValue where
  pointer : Nat
  content : NodeContent
  false_drop : Bool
deriving DecidableEq, Repr

/-- The FFI calls emitted by the wrapper layer. -/
inductive FFICall where
  | plist_free (p : Nat)
  | plist_array_set_item (arr item : Nat) (idx : Nat)
  | plist_array_append_item (arr item : Nat)
  | plist_array_insert_item (arr item : Nat) (idx : Nat)
  | plist_array_remove_item (arr : Nat) (idx : Nat)
  | plist_dict_set_item (dict : Nat) (key : String) (item : Nat)
  | plist_array_new_iter (node : Nat)
  | plist_array_next_item (node iter : Nat)
  | plist_dict_next_item (node iter : Nat)
  | libc_free (p : Nat)
  | plist_mem_free (p : Nat)
  | plist_set_bool_val (p : Nat) (b : Bool)
  | plist_set_data_val (p : Nat) (bytes : List Nat)
  | plist_set_date_val (p : Nat) (sec usec : Int)
  | plist_set_uint_val (p : Nat) (bits : Nat)
  | plist_set_real_val (p : Nat) (bits : Nat)
  | plist_set_string_val (p : Nat) (s : String)
  | plist_set_uid_val (p : Nat) (u : Nat)
deriving DecidableEq, Repr

/-- `from_pointer` of `src/lib.rs`: reads the node type at the pointer and
builds the matching wrapper with `false_drop: false`. -/
def from_pointer (p : Nat) (c : NodeContent) : WValue :=
  { pointer := p, content := c, false_drop := false }

/-- `set_false_drop` of the `PlistFFI` trait: updates the flag. -/
def set_false_drop (v : WValue) (b : Bool) : WValue :=
  { v with false_drop := b }

/-- The `Drop` impl generated by `impl_node!` in `src/types.rs`: calls
`plist_free` on the pointer exactly when `false_drop` is `false`. -/
def drop_calls (v : WValue) : List FFICall :=
  if v.false_drop then [] else [.plist_free v.pointer]

/-- `Except.isOk`, written out locally. -/
def except_ok {ε α : Type} : Except ε α → Bool
  | .ok _ => true
  | .error _ => false

/-! ## Array operations (`src/types/array.rs`)

The foreign state of an array node is the list of its children, each a
(pointer, node content) pair; `plist_array_get_size` reports its length and
`plist_array_get_item` returns the child pointer at an in-bounds index. -/

/-- `Array::len`: the foreign reported count. -/
def array_len (st : List (Nat × NodeContent)) : Nat :=
  st.length

/-- `Array::internal_get`: returns `None` when `index >= self.len()`,
otherwise wraps the child via `from_pointer` and sets `false_drop` to
`true`. -/
def array_internal_get (st : List (Nat × NodeContent)) (index : Nat) :
    Option WValue :=
  if array_len st ≤ index then none
  else (st.get? index).map fun pc => set_false_drop (from_pointer pc.1 pc.2) true

/-- `Array::get` (the `Item` wrapper is a transparent deref in the model). -/
def array_get (st : List (Nat × NodeContent)) (index : Nat) : Option WValue :=
  array_internal_get st index

/-- `Array::get_mut` (the `ItemMut` wrapper is a transparent deref). -/
def array_get_mut (st : List (Nat × NodeContent)) (index : Nat) : Option WValue :=
  array_internal_get st index

/-- `Array::set`: bounds-panics on `index >= len`, else flags the incoming
value as borrowed and hands its pointer to `plist_array_set_item`.  Returns
the value wrapper as it is left after the call, and the emitted FFI call. -/
def array_set (st : List (Nat × NodeContent)) (arr_ptr : Nat) (value : WValue)
    (index : Nat) : Except String (WValue × FFICall) :=
  if array_len st ≤ index then
    .error "inserting index should be < len"
  else
    let value := set_false_drop value true
    .ok (value, .plist_array_set_item arr_ptr value.pointer index)

/-- `Array::append`: flags the incoming value as borrowed and hands its
pointer to `plist_array_append_item`; there is no failure path. -/
def array_append (arr_ptr : Nat) (value : WValue) : WValue × FFICall :=
  let value := set_false_drop value true
  (value, .plist_array_append_item arr_ptr value.pointer)

/-- `Array::insert`: bounds-panics on `index >= len` (so also at
`index == len`), else flags the incoming value as borrowed and hands its
pointer to `plist_array_insert_item`. -/
def array_insert (st : List (Nat × NodeContent)) (arr_ptr : Nat)
    (value : WValue) (index : Nat) : Except String (WValue × FFICall) :=
  if array_len st ≤ index then
    .error "inserting index should be < len"
  else
    let value := set_false_drop value true
    .ok (value, .plist_array_insert_item arr_ptr value.pointer index)

/-- `Array::remove`: bounds-panics on `index >= len`, else emits
`plist_array_remove_item`. -/
def array_remove (st : List (Nat × NodeContent)) (arr_ptr : Nat)
    (index : Nat) : Except String FFICall :=
  if array_len st ≤ index then
    .error "removal index should be < len"
  else
    .ok (.plist_array_remove_item arr_ptr index)

/-! ## Dictionary operations (`src/types/dictionary.rs`) -/

/-- One entry of the foreign state of a dictionary node: the key node's
pointer and string, and the value node's pointer and content. -/
structure DictEntry where
  key_pointer : Nat
  key : String
  pointer : Nat
  content : NodeContent
deriving DecidableEq, Repr

/-- `true` when the string contains an interior NUL byte, the exact condition
under which `CString::new` fails (only the char U+0000 encodes a 0 byte in
UTF-8). -/
def has_nul (s : String) : Bool :=
  s.data.contains (Char.ofNat 0)

/-- `plist_dict_get_item`: first entry with a matching key, if any. -/
def dict_find (st : List DictEntry) (key : String) : Option DictEntry :=
  match st with
  | [] => none
  | e :: rest => if e.key = key then some e else dict_find rest key

/-- `Dictionary::len`: the foreign reported count. -/
def dict_len (st : List DictEntry) : Nat :=
  st.length

/-- `Dictionary::internal_get`: panics (`CString::new(..).unwrap()`) on a
NUL-containing key; otherwise returns `None` when the key is absent, else
wraps the found value and sets `false_drop` to `true`. -/
def dict_internal_get (st : List DictEntry) (key : String) :
    Except String (Option WValue) :=
  if has_nul key then .error "nul byte found in provided data"
  else
    .ok ((dict_find st key).map fun e =>
      set_false_drop (from_pointer e.pointer e.content) true)

/-- `Dictionary::get` (transparent `Item` wrapper). -/
def dict_get (st : List DictEntry) (key : String) : Except String (Option WValue) :=
  dict_internal_get st key

/-- `Dictionary::get_mut` (transparent `ItemMut` wrapper). -/
def dict_get_mut (st : List DictEntry) (key : String) :
    Except String (Option WValue) :=
  dict_internal_get st key

/-- `Dictionary::insert`: panics on a NUL-containing key; otherwise flags the
incoming value as borrowed and hands its pointer to `plist_dict_set_item`. -/
def dict_insert (dict_ptr : Nat) (key : String) (value : WValue) :
    Except String (WValue × FFICall) :=
  if has_nul key then .error "nul byte found in provided data"
  else
    let value := set_false_drop value true
    .ok (value, .plist_dict_set_item dict_ptr key value.pointer)

/-! ## Iterators

The foreign cursor is a position into the container's child list;
`plist_array_next_item` / `plist_dict_next_item` yield the child at the
cursor or a NULL sentinel at the end. -/

/-- `iter_next` of `src/types/array.rs` (shared by `Iter` and `IterMut`):
wraps the yielded child and sets `false_drop` to `true`. -/
def array_iter_next (st : List (Nat × NodeContent)) (pos : Nat) : Option WValue :=
  (st.get? pos).map fun pc => set_false_drop (from_pointer pc.1 pc.2) true

/-- `iter_next` of `src/types/dictionary.rs` (shared by `Iter` and `IterMut`):
wraps the yielded key node and value node, setting `false_drop` to `true` on
both. -/
def dict_iter_next (st : List DictEntry) (pos : Nat) :
    Option (WValue × WValue) :=
  (st.get? pos).map fun e =>
    (set_false_drop (from_pointer e.key_pointer (.keyC e.key)) true,
     set_false_drop (from_pointer e.pointer e.content) true)

/-- `impl Drop for Iter` in `src/types/array.rs`: releases the cursor via
`libc::free`. -/
def array_iter_drop (iter_pointer : Nat) : List FFICall :=
  [.libc_free iter_pointer]

/-- `impl Drop for IterMut` in `src/types/array.rs`. -/
def array_iter_mut_drop (iter_pointer : Nat) : List FFICall :=
  [.libc_free iter_pointer]

/-- `impl Drop for Iter` in `src/types/dictionary.rs`. -/
def dict_iter_drop (iter_pointer : Nat) : List FFICall :=
  [.libc_free iter_pointer]

/-- `impl Drop for IterMut` in `src/types/dictionary.rs`. -/
def dict_iter_mut_drop (iter_pointer : Nat) : List FFICall :=
  [.libc_free iter_pointer]

/-- The free of a foreign-allocated output buffer in `to_xml` / `to_json` /
`to_bytes` / `to_openstep` of `src/types.rs`: `plist_mem_free`. -/
def encode_buffer_free (p : Nat) : FFICall :=
  .plist_mem_free p

/-- The full FFI trace of one array iterator: allocation of the cursor at
iteration start, `steps` many next calls (however far the caller advances
before iteration ends), and the single `Drop` at the end.  Rust runs `Drop`
exactly once on every exit path: exhaustion, early abandonment, or error
(unwind). -/
def array_iter_lifecycle (arr it steps : Nat) : List FFICall :=
  .plist_array_new_iter arr ::
    ((List.range steps).map fun _ => .plist_array_next_item arr it) ++
      array_iter_drop it

/-- The full FFI trace of one dictionary iterator. -/
def dict_iter_lifecycle (dict it steps : Nat) : List FFICall :=
  .plist_array_new_iter dict ::
    ((List.range steps).map fun _ => .plist_dict_next_item dict it) ++
      dict_iter_drop it

/-- `true` for a call deallocating the pointer `p` through either of the two
deallocators in the crate (`libc::free` or `plist_mem_free`). -/
def releases (p : Nat) : FFICall → Bool
  | .libc_free q => p = q
  | .plist_mem_free q => p = q
  | _ => false

/-- How many calls of the trace release the pointer `p`. -/
def count_releases (p : Nat) (tr : List FFICall) : Nat :=
  (tr.filter (releases p)).length

/-! ## `Value::replace_with` (`src/lib.rs`, lines 401-450)

The outcome of a successful call: the FFI calls made, the pre-replacement
wrapper as it is left right before the rebinding assignment drops it
(`self.as_node_mut().set_false_drop(true)`), and the reconstructed wrapper
the caller's reference is rebound to (`new_self`, rebuilt by `from_pointer`
on the same pointer and given the target's original flag). -/
structure ReplaceOutcome where
  calls : List FFICall
  stale : WValue
  new_self : WValue
deriving DecidableEq, Repr

/-- `Value::replace_with`.  Dispatches on the replacement's variant: each of
the seven scalar variants copies the replacement's content into the target's
node via the per-kind foreign set-value call and rebuilds the wrapper from
the unchanged pointer; an Array, Dictionary, Key or Null replacement panics.
The target's own variant is never inspected. -/
def replace_with (self new_value : WValue) : Except String ReplaceOutcome :=
  let pointer := self.pointer
  let false_drop := self.false_drop
  let finish (call : FFICall) (copied : NodeContent) : Except String ReplaceOutcome :=
    let new_self := from_pointer pointer copied
    .ok { calls := [call]
          stale := set_false_drop self true
          new_self := set_false_drop new_self false_drop }
  match new_value.content with
  | .booleanC b => finish (.plist_set_bool_val pointer b) (.booleanC b)
  | .dataC bytes => finish (.plist_set_data_val pointer bytes) (.dataC bytes)
  | .dateC sec usec => finish (.plist_set_date_val pointer sec usec) (.dateC sec usec)
  | .integerC bits => finish (.plist_set_uint_val pointer bits) (.integerC bits)
  | .realC bits => finish (.plist_set_real_val pointer bits) (.realC bits)
  | .stringC s => finish (.plist_set_string_val pointer s) (.stringC s)
  | .uidC u => finish (.plist_set_uid_val pointer u) (.uidC u)
  | .arrayC | .dictC | .keyC _ | .nullC =>
    .error "Replacing a plist node with a such value is not supported"

/-! ## Machine-integer casts

The Rust casts written in `src/types/date.rs`, over unbounded `Int`/`Nat`. -/

/-- `as i32`: two's-complement wrap into `[-2^31, 2^31)`. -/
def wrap_i32 (z : Int) : Int :=
  (z + 2 ^ 31) % 2 ^ 32 - 2 ^ 31

/-- `as i64`: two's-complement wrap into `[-2^63, 2^63)`. -/
def wrap_i64 (z : Int) : Int :=
  (z + 2 ^ 63) % 2 ^ 64 - 2 ^ 63

/-- `as u64`: wrap into `[0, 2^64)`. -/
def wrap_u64 (z : Int) : Nat :=
  (z % 2 ^ 64).toNat

/-! ## Date (`src/types/date.rs`) -/

/-- `MAC_EPOCH`: seconds from the Unix epoch to 01/01/2001. -/
def mac_epoch_secs : Nat := 978307200

/-- `MAC_EPOCH` in microseconds (`mac_epoch.as_micros() as i64`). -/
def mac_epoch_micros : Int := 978307200000000

/-- The `secs` local of `Date::new`:
`(date.as_secs() as i64 - mac_epoch.as_secs() as i64) as i32`, where the
input duration since the Unix epoch is taken at microsecond granularity
(`micros = d.as_secs() * 10^6 + d.subsec_micros()`, so
`d.as_secs() = micros / 10^6`).  The intermediate `i64` subtraction wraps on
overflow (release-mode semantics). -/
def date_new_secs (micros : Nat) : Int :=
  wrap_i32 (wrap_i64 (wrap_i64 ((micros / 1000000 : Nat) : Int)
    - wrap_i64 ((mac_epoch_secs : Nat) : Int)))

/-- The `usecs` local of `Date::new`:
`(((date.as_micros() as i64 - mac_epoch.as_micros() as i64) as i128)
- (secs as i128 * 1000000)) as i32`.  The `i128` subtraction is exact for
these operand ranges, so only the `i64` and `i32` wraps appear. -/
def date_new_usecs (micros : Nat) : Int :=
  wrap_i32 (wrap_i64 (wrap_i64 (micros : Int) - mac_epoch_micros)
    - date_new_secs micros * 1000000)

/-- `Date::new`: the `(secs, usecs)` pair handed to `plist_new_date`, which
the foreign node stores as two signed 32-bit fields. -/
def date_new (micros : Nat) : Int × Int :=
  (date_new_secs micros, date_new_usecs micros)

/-- `Date::get`, reading back the stored pair via `plist_get_date_val`:
`Duration::from_micros((MAC_EPOCH as i64 * 1000000 + usec as i64 +
(sec as i64) * 1000000) as u64)`.  The `i64` operations cannot overflow for
stored 32-bit fields, so they are exact here. -/
def date_get (sec usec : Int) : Nat :=
  wrap_u64 (mac_epoch_micros + (usec + sec * 1000000))

/-! ## Errors and text decoding (`src/error.rs`, `src/lib.rs`) -/

/-- The `Error` enum of `src/error.rs` (`Error::IO` is named `IOError`
here). -/
inductive Error where
  | InvalidArg
  | Format
  | Parse
  | NoMem
  | IOError
  | Unknown
deriving DecidableEq, Repr

/-- `impl From<c_int> for Error`.  The numeric codes are the foreign
`plist_err_t` values (success 0, then -1, -2, -3, -4, -5), consumed as a
fixed contract; a success code is never converted (the Rust impl panics on
it, callers check it beforehand). -/
def error_from_code (code : Int) : Error :=
  if code = -1 then .InvalidArg
  else if code = -2 then .Format
  else if code = -3 then .Parse
  else if code = -4 then .NoMem
  else if code = -5 then .IOError
  else .Unknown

/-- An abstract foreign decoder (`plist_from_json` / `plist_from_xml` /
`plist_from_openstep`): returns the `plist_err_t` result code and the filled
root node.  The decoders' internals are a black box; the claims only concern
the wrapper around them. -/
def ForeignDecoder : Type :=
  String → Int × (Nat × NodeContent)

/-- The shared body of `from_json`, `from_xml` and `from_openstep` in
`src/lib.rs`: `CString::new` first (an interior NUL byte yields
`Err(Error::InvalidArg)` through `impl From<NulError> for Error` before any
FFI), then the foreign decode, then the result-code check.  The boolean
records whether the foreign decoder was invoked. -/
def decode_text (dec : ForeignDecoder) (s : String) :
    Except Error WValue × Bool :=
  if has_nul s then (.error .InvalidArg, false)
  else
    let (result, node) := dec s
    if result ≠ 0 then (.error (error_from_code result), true)
    else (.ok (from_pointer node.1 node.2), true)

/-- `from_json` of `src/lib.rs`. -/
def from_json (dec : ForeignDecoder) (s : String) : Except Error WValue × Bool :=
  decode_text dec s

/-- `from_xml` of `src/lib.rs`. -/
def from_xml (dec : ForeignDecoder) (s : String) : Except Error WValue × Bool :=
  decode_text dec s

/-- `from_openstep` of `src/lib.rs`. -/
def from_openstep (dec : ForeignDecoder) (s : String) :
    Except Error WValue × Bool :=
  decode_text dec s

/-! ## Integer (`src/types/integer.rs`)

An integer node stores an unsigned 64-bit representation; `plist_get_uint_val`
returns it unchanged. -/

/-- `Integer::new_signed`: the stored bits are the two's-complement pattern of
the `i64`. -/
def new_signed (v : Int) : Nat :=
  wrap_u64 v

/-- `Integer::new_unsigned`. -/
def new_unsigned (v : Nat) : Nat :=
  v % 2 ^ 64

/-- `Integer::as_unsinged` (the misspelling is the source's): the stored
unsigned 64-bit representation. -/
def as_unsinged (bits : Nat) : Nat :=
  bits

/-- `impl PartialEq for Integer`: `self.as_unsinged() == other.as_unsinged()`. -/
def integer_eq (x y : Nat) : Bool :=
  as_unsinged x == as_unsinged y

/-! ## Value trees and `PartialEq` (`src/lib.rs` derived impl, per-kind impls)

`PValue` is the denotation of one foreign subtree: everything the per-kind
accessors can read from it, recursively.  `beq` is the crate's equality:
the derived `PartialEq` on `Value` compares variant tags, then delegates to
the per-kind `PartialEq` impls. -/

/-- A plist value tree.  `integer`/`real` hold the 64-bit representation,
`date` the stored signed 32-bit seconds/microseconds pair. -/
inductive PValue where
  | array (xs : List PValue)
  | boolean (b : Bool)
  | data (bytes : List Nat)
  | date (sec usec : Int)
  | dictionary (entries : List (String × PValue))
  | integer (bits : Nat)
  | key (s : String)
  | null
  | real (bits : Nat)
  | pstring (s : String)
  | uid (u : Nat)
deriving Repr

/-- IEEE-754 binary64 NaN test on the bit pattern. -/
def f64_is_nan (bits : Nat) : Bool :=
  (bits / 2 ^ 52) % 2 ^ 11 == 2047 && bits % 2 ^ 52 != 0

/-- IEEE-754 binary64 equality on bit patterns (`f64 == f64` in
`impl PartialEq for Real`): false on any NaN, `+0.0 == -0.0`, and otherwise
equal exactly on equal patterns (non-NaN binary64 values have unique
representations apart from the two zeros). -/
def f64_eq (a b : Nat) : Bool :=
  if f64_is_nan a || f64_is_nan b then false
  else (a % 2 ^ 63 == 0 && b % 2 ^ 63 == 0) || a == b

/-- `plist_dict_get_item` on a value tree: first entry with a matching key. -/
def pdict_find : List (String × PValue) → String → Option PValue
  | [], _ => none
  | (k, v) :: rest, key => if k = key then some v else pdict_find rest key

mutual

/-- The crate's `==` on `Value`: different variants are unequal; scalars
compare by their per-kind impls (`Date` through `Date::get`, `Integer`
through `as_unsinged`, `Real` by `f64` equality, `Null` always equal);
`Array` compares length then pairwise in order; `Dictionary` compares length
then, for every pair of `self`, looks the key up in `other` and compares the
values. -/
def beq : PValue → PValue → Bool
  | .array xs, .array ys => xs.length == ys.length && beq_list xs ys
  | .boolean a, .boolean b => a == b
  | .data a, .data b => a == b
  | .date s1 u1, .date s2 u2 => date_get s1 u1 == date_get s2 u2
  | .dictionary xs, .dictionary ys => xs.length == ys.length && beq_entries xs ys
  | .integer a, .integer b => integer_eq a b
  | .key a, .key b => a == b
  | .null, .null => true
  | .real a, .real b => f64_eq a b
  | .pstring a, .pstring b => a == b
  | .uid a, .uid b => a == b
  | _, _ => false

/-- The zipped pairwise loop of `impl PartialEq for Array`: stops at the
shorter list (the caller has already checked the lengths). -/
def beq_list : List PValue → List PValue → Bool
  | x :: xs, y :: ys => beq x y && beq_list xs ys
  | _, _ => true

/-- The loop of `impl PartialEq for Dictionary`: for every pair of `self`,
look the key up in `other`; a missing key or an unequal value fails. -/
def beq_entries : List (String × PValue) → List (String × PValue) → Bool
  | [], _ => true
  | (k, v) :: rest, other =>
    match pdict_find other k with
    | some j => beq v j && beq_entries rest other
    | none => false

end

/-! ## Theorems -/

/-- Any wrapper produced by the shared borrow-wrapping step carries
`false_drop = true` and frees nothing on drop. -/
lemma borrow_wrap_no_free (p : Nat) (c : NodeContent) :
    (set_false_drop (from_pointer p c) true).false_drop = true ∧
      drop_calls (set_false_drop (from_pointer p c) true) = [] := by
  constructor
  · rfl
  · rfl

lemma array_internal_get_flag {st : List (Nat × NodeContent)} {i : Nat}
    {v : WValue} (h : array_internal_get st i = some v) :
    v.false_drop = true ∧ drop_calls v = [] := by
  unfold array_internal_get at h
  split at h
  · cases h
  · obtain ⟨pc, _, rfl⟩ := Option.map_eq_some'.mp h
    exact borrow_wrap_no_free pc.1 pc.2

lemma dict_internal_get_flag {st : List DictEntry} {k : String} {v : WValue}
    (h : dict_internal_get st k = .ok (some v)) :
    v.false_drop = true ∧ drop_calls v = [] := by
  unfold dict_internal_get at h
  split at h
  · cases h
  · injection h with h
    obtain ⟨e, _, rfl⟩ := Option.map_eq_some'.mp h
    exact borrow_wrap_no_free e.pointer e.content

/-- C1: a value obtained from a container by index lookup (`Array::get`,
`Array::get_mut`), key lookup (`Dictionary::get`, `Dictionary::get_mut`) or
iteration (array and dictionary `iter_next`, including the yielded dictionary
keys) is constructed with `false_drop = true`, and dropping it emits no
`plist_free`; `plist_free` is emitted on drop exactly when `false_drop` is
`false`. -/
theorem borrowed_views_never_free :
    (∀ st i v, array_get st i = some v →
      v.false_drop = true ∧ drop_calls v = []) ∧
    (∀ st i v, array_get_mut st i = some v →
      v.false_drop = true ∧ drop_calls v = []) ∧
    (∀ st k v, dict_get st k = .ok (some v) →
      v.false_drop = true ∧ drop_calls v = []) ∧
    (∀ st k v, dict_get_mut st k = .ok (some v) →
      v.false_drop = true ∧ drop_calls v = []) ∧
    (∀ st pos v, array_iter_next st pos = some v →
      v.false_drop = true ∧ drop_calls v = []) ∧
    (∀ st pos k v, dict_iter_next st pos = some (k, v) →
      (k.false_drop = true ∧ drop_calls k = []) ∧
        (v.false_drop = true ∧ drop_calls v = [])) ∧
    (∀ w : WValue, FFICall.plist_free w.pointer ∈ drop_calls w ↔
      w.false_drop = false) := by
  refine ⟨fun st i v h => array_internal_get_flag h,
    fun st i v h => array_internal_get_flag h,
    fun st k v h => dict_internal_get_flag h,
    fun st k v h => dict_internal_get_flag h,
    fun st pos v h => ?_, fun st pos k v h => ?_, fun w => ?_⟩
  · unfold array_iter_next at h
    obtain ⟨pc, _, rfl⟩ := Option.map_eq_some'.mp h
    exact borrow_wrap_no_free pc.1 pc.2
  · unfold dict_iter_next at h
    obtain ⟨e, _, he⟩ := Option.map_eq_some'.mp h
    obtain ⟨rfl, rfl⟩ := Prod.mk.injEq .. ▸ he
    exact ⟨borrow_wrap_no_free e.key_pointer (.keyC e.key),
      borrow_wrap_no_free e.pointer e.content⟩
  · unfold drop_calls
    cases hw : w.false_drop <;> simp

/-- C1 witness: a concrete one-element array, looked up at index 0. -/
theorem borrowed_views_never_free_witness :
    array_get [(5, NodeContent.booleanC true)] 0 =
      some (set_false_drop (from_pointer 5 (.booleanC true)) true) ∧
    (set_false_drop (from_pointer 5 (.booleanC true)) true).false_drop = true ∧
    drop_calls (set_false_drop (from_pointer 5 (.booleanC true)) true) = [] := by
  refine ⟨by decide, ?_, ?_⟩
  · exact (borrowed_views_never_free.1 [(5, .booleanC true)] 0
      (set_false_drop (from_pointer 5 (.booleanC true)) true) (by decide)).1
  · exact (borrowed_views_never_free.1 [(5, .booleanC true)] 0
      (set_false_drop (from_pointer 5 (.booleanC true)) true) (by decide)).2

/-- C2: `Array::set`, `Array::append`, `Array::insert` and
`Dictionary::insert` flag the incoming value as borrowed
(`false_drop = true`) and hand exactly its pointer to the foreign container
call; the wrapper left behind frees nothing when later dropped. -/
theorem insert_forces_borrowed_flag :
    (∀ st a v i out, array_set st a v i = .ok out →
      out.1.false_drop = true ∧ out.1.pointer = v.pointer ∧
        out.2 = .plist_array_set_item a v.pointer i ∧ drop_calls out.1 = []) ∧
    (∀ a v, (array_append a v).1.false_drop = true ∧
      (array_append a v).1.pointer = v.pointer ∧
      (array_append a v).2 = .plist_array_append_item a v.pointer ∧
      drop_calls (array_append a v).1 = []) ∧
    (∀ st a v i out, array_insert st a v i = .ok out →
      out.1.false_drop = true ∧ out.1.pointer = v.pointer ∧
        out.2 = .plist_array_insert_item a v.pointer i ∧
        drop_calls out.1 = []) ∧
    (∀ d k v out, dict_insert d k v = .ok out →
      out.1.false_drop = true ∧ out.1.pointer = v.pointer ∧
        out.2 = .plist_dict_set_item d k v.pointer ∧
        drop_calls out.1 = []) := by
  refine ⟨fun st a v i out h => ?_, fun a v => ?_,
    fun st a v i out h => ?_, fun d k v out h => ?_⟩
  · unfold array_set at h
    split at h
    · cases h
    · injection h with h
      subst h
      exact ⟨rfl, rfl, rfl, rfl⟩
  · exact ⟨rfl, rfl, rfl, rfl⟩
  · unfold array_insert at h
    split at h
    · cases h
    · injection h with h
      subst h
      exact ⟨rfl, rfl, rfl, rfl⟩
  · unfold dict_insert at h
    split at h
    · cases h
    · injection h with h
      subst h
      exact ⟨rfl, rfl, rfl, rfl⟩

/-- A sample owned boolean wrapper, used by concrete witnesses. -/
def sample_owned : WValue :=
  { pointer := 7, content := .booleanC true, false_drop := false }

/-- `sample_owned` as it is left after being flagged borrowed. -/
def sample_borrowed : WValue :=
  { pointer := 7, content := .booleanC true, false_drop := true }

/-- C2 witness: a concrete in-bounds `Array::set`. -/
theorem insert_forces_borrowed_flag_witness :
    array_set [(1, NodeContent.nullC)] 9 sample_owned 0 =
      .ok (sample_borrowed, .plist_array_set_item 9 7 0) ∧
    sample_borrowed.false_drop = true ∧
    drop_calls sample_borrowed = [] := by
  refine ⟨rfl, ?_, ?_⟩
  · exact (insert_forces_borrowed_flag.1 [(1, .nullC)] 9 sample_owned 0
      (sample_borrowed, .plist_array_set_item 9 7 0) rfl).1
  · exact (insert_forces_borrowed_flag.1 [(1, .nullC)] 9 sample_owned 0
      (sample_borrowed, .plist_array_set_item 9 7 0) rfl).2.2.2

/-- C5: `Array::get`/`Array::get_mut` are absent exactly on `i >= len` and
otherwise return the (borrow-flagged) element at `i`; `Array::set`,
`Array::insert` and `Array::remove` panic exactly on `i >= len` — so
`insert` at `i == len` panics — and `Array::append` succeeds on every
input, emitting the append call. -/
theorem array_index_contract :
    (∀ st i, array_get st i = none ↔ array_len st ≤ i) ∧
    (∀ st i, array_get_mut st i = none ↔ array_len st ≤ i) ∧
    (∀ st i pc, st.get? i = some pc →
      array_get st i = some (set_false_drop (from_pointer pc.1 pc.2) true) ∧
      array_get_mut st i = some (set_false_drop (from_pointer pc.1 pc.2) true)) ∧
    (∀ st a v i, except_ok (array_set st a v i) = false ↔ array_len st ≤ i) ∧
    (∀ st a v i, except_ok (array_insert st a v i) = false ↔ array_len st ≤ i) ∧
    (∀ st a v, except_ok (array_insert st a v (array_len st)) = false) ∧
    (∀ st a i, except_ok (array_remove st a i) = false ↔ array_len st ≤ i) ∧
    (∀ a v, array_append a v =
      (set_false_drop v true, .plist_array_append_item a v.pointer)) := by
  have hget : ∀ st i, array_internal_get st i = none ↔ array_len st ≤ i := by
    intro st i
    unfold array_internal_get
    split
    · simp_all
    · rename_i h
      simp only [Option.map_eq_none', List.get?_eq_none, array_len] at h ⊢
      try omega
  refine ⟨hget, hget, fun st i pc hpc => ?_, fun st a v i => ?_,
    fun st a v i => ?_, fun st a v => ?_, fun st a i => ?_, fun a v => rfl⟩
  · have hlt : i < array_len st := by
      by_contra hc
      rw [List.get?_eq_none.mpr (by simpa [array_len] using hc)] at hpc
      cases hpc
    have hsome : array_internal_get st i =
        some (set_false_drop (from_pointer pc.1 pc.2) true) := by
      unfold array_internal_get
      rw [if_neg (Nat.not_le_of_lt hlt), hpc]
      rfl
    exact ⟨hsome, hsome⟩
  · unfold array_set
    split <;> simp_all [except_ok]
  · unfold array_insert
    split <;> simp_all [except_ok]
  · unfold array_insert
    simp [except_ok]
  · unfold array_remove
    split <;> simp_all [except_ok]

/-- C5 witness: the contract instantiated on a concrete one-element array:
`get` at 1 is absent, `insert` at `len` panics, `append` succeeds. -/
theorem array_index_contract_witness :
    array_get [(5, NodeContent.nullC)] 1 = none ∧
    except_ok (array_insert [(5, NodeContent.nullC)] 2 sample_owned 1) = false ∧
    array_append 2 sample_owned =
      (sample_borrowed, .plist_array_append_item 2 7) := by
  refine ⟨?_, ?_, ?_⟩
  · exact (array_index_contract.1 [(5, .nullC)] 1).mpr (by decide)
  · exact array_index_contract.2.2.2.2.2.1 [(5, .nullC)] 2 sample_owned
  · exact array_index_contract.2.2.2.2.2.2.2 2 sample_owned

/-- C3 counterexample: a content replacement whose target is an Array and
whose replacement is a scalar (Boolean) does not panic — `replace_with`
never inspects the target's variant, only the replacement's — contradicting
the claim that an Array target is a fatal precondition violation. -/
theorem replace_with_array_target_no_panic :
    except_ok (replace_with (from_pointer 0 .arrayC)
      (from_pointer 1 (.booleanC true))) = true := by
  rfl

/-- C3 (amended): `Value::replace_with` succeeds exactly when the
*replacement* is one of the seven scalar kinds, and panics exactly when the
replacement is an Array, Dictionary, Key or Null; the target's kind is never
checked. -/
theorem replace_with_panics_iff_nonscalar_replacement :
    ∀ self nv : WValue,
      except_ok (replace_with self nv) = nv.content.kind.is_scalar := by
  intro self nv
  rcases nv with ⟨np, nc, nf⟩
  cases nc <;> rfl

/-- C4: for a scalar target and scalar replacement, `replace_with` keeps the
target's pointer in the rebound wrapper, copies the replacement's content
in, flags the pre-replacement wrapper `false_drop = true` (so the rebinding
assignment frees nothing), and gives the rebound wrapper the target's
original flag. -/
theorem replace_with_preserves_identity :
    ∀ self nv : WValue,
      self.content.kind.is_scalar = true →
      nv.content.kind.is_scalar = true →
      ∃ out, replace_with self nv = .ok out ∧
        out.new_self.pointer = self.pointer ∧
        out.new_self.content = nv.content ∧
        out.stale.false_drop = true ∧
        drop_calls out.stale = [] ∧
        out.new_self.false_drop = self.false_drop := by
  intro self nv h1 h2
  rcases nv with ⟨np, nc, nf⟩
  cases nc
  case arrayC => cases h2
  case dictC => cases h2
  case keyC s => cases h2
  case nullC => cases h2
  all_goals exact ⟨_, rfl, rfl, rfl, rfl, rfl, rfl⟩

/-- C4 witness: replacing a concrete Integer target with a concrete String
replacement. -/
theorem replace_with_preserves_identity_witness :
    NodeType.is_scalar (NodeContent.integerC 7).kind = true ∧
    NodeType.is_scalar (NodeContent.stringC "world").kind = true ∧
    ∃ out,
      replace_with (from_pointer 3 (.integerC 7))
          (from_pointer 4 (.stringC "world")) = .ok out ∧
      out.new_self.pointer = 3 ∧
      out.new_self.content = .stringC "world" ∧
      out.stale.false_drop = true ∧
      drop_calls out.stale = [] ∧
      out.new_self.false_drop = false := by
  refine ⟨rfl, rfl, ?_⟩
  exact replace_with_preserves_identity (from_pointer 3 (.integerC 7))
    (from_pointer 4 (.stringC "world")) rfl rfl

/-- The dictionary comparison loop holds exactly when every pair of the left
entry list finds an equal value under its key in the right entry list. -/
lemma beq_entries_iff (xs ys : List (String × PValue)) :
    beq_entries xs ys = true ↔
      ∀ p ∈ xs, ∃ j, pdict_find ys p.1 = some j ∧ beq p.2 j = true := by
  induction xs with
  | nil => simp [beq_entries]
  | cons hd tl ih =>
    rcases hd with ⟨k, v⟩
    rw [beq_entries]
    cases hfind : pdict_find ys k with
    | none =>
      constructor
      · intro h
        cases h
      · intro h
        obtain ⟨j, hj, _⟩ := h (k, v) (List.mem_cons_self _ _)
        rw [hfind] at hj
        cases hj
    | some j =>
      rw [Bool.and_eq_true, ih]
      constructor
      · rintro ⟨hv, hall⟩ p hp
        rcases List.mem_cons.mp hp with rfl | hp
        · exact ⟨j, hfind, hv⟩
        · exact hall p hp
      · intro h
        refine ⟨?_, fun p hp => h p (List.mem_cons_of_mem _ hp)⟩
        obtain ⟨j2, hj2, hb⟩ := h (k, v) (List.mem_cons_self _ _)
        rw [hfind] at hj2
        injection hj2 with hj2
        rwa [hj2]

/-- C6: dictionary equality is unordered and length-sensitive: two
dictionaries compare equal exactly when their lengths agree and every
key-value pair of the first finds an equal value under the same key in the
second; in particular a-1,b-2 equals b-2,a-1 and a-1 differs from a-1,b-2. -/
theorem dictionary_eq_unordered :
    (∀ xs ys, beq (.dictionary xs) (.dictionary ys) = true ↔
      (xs.length = ys.length ∧
        ∀ p ∈ xs, ∃ j, pdict_find ys p.1 = some j ∧ beq p.2 j = true)) ∧
    beq (.dictionary [("a", .integer 1), ("b", .integer 2)])
      (.dictionary [("b", .integer 2), ("a", .integer 1)]) = true ∧
    beq (.dictionary [("a", .integer 1)])
      (.dictionary [("a", .integer 1), ("b", .integer 2)]) = false := by
  refine ⟨fun xs ys => ?_, by decide, by decide⟩
  rw [beq, Bool.and_eq_true, beq_entries_iff]
  simp [Nat.beq_eq_true_eq]

/-- C10 (implicit): `Integer` equality compares only the unsigned 64-bit
representation, so `new_signed(-1)` equals `new_unsigned(2^64 - 1)`, and
this carries into `Value`, `Array` and `Dictionary` equality. -/
theorem integer_eq_unsigned_repr :
    (∀ x y : Nat, integer_eq x y = true ↔ as_unsinged x = as_unsinged y) ∧
    integer_eq (new_signed (-1)) (new_unsigned 18446744073709551615) = true ∧
    (∀ x y : Nat, beq (.integer x) (.integer y) = integer_eq x y) ∧
    beq (.integer (new_signed (-1)))
      (.integer (new_unsigned 18446744073709551615)) = true ∧
    beq (.array [.integer (new_signed (-1))])
      (.array [.integer (new_unsigned 18446744073709551615)]) = true ∧
    beq (.dictionary [("k", .integer (new_signed (-1)))])
      (.dictionary [("k", .integer (new_unsigned 18446744073709551615))]) =
      true := by
  refine ⟨fun x y => ?_, by decide, fun x y => rfl, by decide, by decide,
    by decide⟩
  simp [integer_eq, as_unsinged]

lemma wrap_i32_eq {z : Int} (h1 : -(2 ^ 31) ≤ z) (h2 : z < 2 ^ 31) :
    wrap_i32 z = z := by
  unfold wrap_i32
  have : (z + 2 ^ 31) % 2 ^ 32 = z + 2 ^ 31 :=
    Int.emod_eq_of_lt (by omega) (by omega)
  omega

lemma wrap_i64_eq {z : Int} (h1 : -(2 ^ 63) ≤ z) (h2 : z < 2 ^ 63) :
    wrap_i64 z = z := by
  unfold wrap_i64
  have : (z + 2 ^ 63) % 2 ^ 64 = z + 2 ^ 63 :=
    Int.emod_eq_of_lt (by omega) (by omega)
  omega

lemma wrap_u64_nat {n : Nat} (h : n < 2 ^ 64) : wrap_u64 n = n := by
  unfold wrap_u64
  rw [Int.emod_eq_of_lt (by omega) (by exact_mod_cast h)]
  exact Int.toNat_natCast n

lemma mac_epoch_secs_i64 : wrap_i64 ((mac_epoch_secs : Nat) : Int) =
    (978307200 : Int) := by
  unfold mac_epoch_secs wrap_i64
  decide

/-- Under the in-range hypotheses, the stored `secs` is exactly the seconds
offset from the reference epoch. -/
lemma date_new_secs_eq (micros : Nat)
    (h1 : -(2 ^ 31) ≤ ((micros / 1000000 : Nat) : Int) - 978307200)
    (h2 : ((micros / 1000000 : Nat) : Int) - 978307200 < 2 ^ 31) :
    date_new_secs micros = ((micros / 1000000 : Nat) : Int) - 978307200 := by
  unfold date_new_secs
  rw [mac_epoch_secs_i64,
    wrap_i64_eq (z := ((micros / 1000000 : Nat) : Int)) (by omega) (by omega),
    wrap_i64_eq (by omega) (by omega), wrap_i32_eq h1 h2]

/-- Under the in-range hypotheses, the stored `usecs` is exactly the
sub-second microseconds of the input. -/
lemma date_new_usecs_eq (micros : Nat)
    (h1 : -(2 ^ 31) ≤ ((micros / 1000000 : Nat) : Int) - 978307200)
    (h2 : ((micros / 1000000 : Nat) : Int) - 978307200 < 2 ^ 31) :
    date_new_usecs micros = ((micros % 1000000 : Nat) : Int) := by
  unfold date_new_usecs mac_epoch_micros
  rw [date_new_secs_eq micros h1 h2,
    wrap_i64_eq (z := (micros : Int)) (by omega) (by omega),
    wrap_i64_eq (by omega) (by omega)]
  have e : (micros : Int) - 978307200000000 -
      (((micros / 1000000 : Nat) : Int) - 978307200) * 1000000 =
      ((micros % 1000000 : Nat) : Int) := by
    omega
  rw [e, wrap_i32_eq (by omega) (by omega)]

/-- C7: for every duration since the Unix epoch (at microsecond granularity)
whose seconds offset from the 2001 reference epoch fits in a signed 32-bit
field (the sub-second microseconds remainder then always fits in a signed
32-bit field), `Date::get` after `Date::new` returns the identical
microsecond timestamp — including timestamps before the reference epoch,
where the stored seconds offset is negative. -/
theorem date_round_trip (micros : Nat)
    (h1 : -(2 ^ 31) ≤ ((micros / 1000000 : Nat) : Int) - 978307200)
    (h2 : ((micros / 1000000 : Nat) : Int) - 978307200 < 2 ^ 31) :
    date_get (date_new micros).1 (date_new micros).2 = micros := by
  show date_get (date_new_secs micros) (date_new_usecs micros) = micros
  rw [date_new_secs_eq micros h1 h2, date_new_usecs_eq micros h1 h2]
  unfold date_get mac_epoch_micros
  have e : (978307200000000 : Int) +
      (((micros % 1000000 : Nat) : Int) +
        (((micros / 1000000 : Nat) : Int) - 978307200) * 1000000) =
      (micros : Int) := by
    omega
  rw [e]
  exact wrap_u64_nat (by omega)

/-- C7 witness: a pre-reference-epoch timestamp (16 May 1981, stored seconds
offset negative) and a post-reference-epoch timestamp round-trip exactly. -/
theorem date_round_trip_witness :
    date_get (date_new 358860726000000).1 (date_new 358860726000000).2 =
      358860726000000 ∧
    date_get (date_new 1546635600123456).1 (date_new 1546635600123456).2 =
      1546635600123456 :=
  ⟨date_round_trip 358860726000000 (by decide) (by decide),
    date_round_trip 1546635600123456 (by decide) (by decide)⟩

/-- C8 counterexample: every iterator `Drop` releases the cursor through
`libc::free`, which is a different call from the foreign `plist_mem_free`
used to free encoded output buffers — so the cursor release does not go
through the deallocation call the claim names. -/
theorem cursor_free_not_plist_mem_free :
    array_iter_drop 3 = [FFICall.libc_free 3] ∧
    array_iter_mut_drop 3 = [FFICall.libc_free 3] ∧
    dict_iter_drop 3 = [FFICall.libc_free 3] ∧
    dict_iter_mut_drop 3 = [FFICall.libc_free 3] ∧
    encode_buffer_free 3 = FFICall.plist_mem_free 3 ∧
    FFICall.plist_mem_free 3 ∉ array_iter_drop 3 := by
  refine ⟨rfl, rfl, rfl, rfl, rfl, by decide⟩

lemma filter_releases_array_next (it arr steps : Nat) :
    (((List.range steps).map fun _ =>
      FFICall.plist_array_next_item arr it).filter (releases it)) = [] := by
  induction steps with
  | zero => rfl
  | succ n ih =>
    rw [List.range_succ, List.map_append, List.filter_append, ih]
    rfl

lemma filter_releases_dict_next (it dict steps : Nat) :
    (((List.range steps).map fun _ =>
      FFICall.plist_dict_next_item dict it).filter (releases it)) = [] := by
  induction steps with
  | zero => rfl
  | succ n ih =>
    rw [List.range_succ, List.map_append, List.filter_append, ih]
    rfl

/-- C8 (amended): over the whole FFI trace of an iterator — cursor
allocation, any number of next calls before iteration ends (exhaustion,
early abandonment, or error unwind), and the single `Drop` — the cursor is
released exactly once, and that release is the C runtime's `libc::free`,
not the foreign `plist_mem_free` used for encoded output buffers.  This
holds for array and dictionary iterators alike (`IterMut` shares the same
drop body). -/
theorem cursor_released_exactly_once :
    ∀ arr dict it steps : Nat,
      count_releases it (array_iter_lifecycle arr it steps) = 1 ∧
      (array_iter_lifecycle arr it steps).filter (releases it) =
        [FFICall.libc_free it] ∧
      count_releases it (dict_iter_lifecycle dict it steps) = 1 ∧
      (dict_iter_lifecycle dict it steps).filter (releases it) =
        [FFICall.libc_free it] := by
  intro arr dict it steps
  have ha : (array_iter_lifecycle arr it steps).filter (releases it) =
      [FFICall.libc_free it] := by
    simp only [array_iter_lifecycle, array_iter_drop, List.filter_cons,
      List.filter_append, filter_releases_array_next]
    simp [releases]
  have hd : (dict_iter_lifecycle dict it steps).filter (releases it) =
      [FFICall.libc_free it] := by
    simp only [dict_iter_lifecycle, dict_iter_drop, List.filter_cons,
      List.filter_append, filter_releases_dict_next]
    simp [releases]
  refine ⟨?_, ha, ?_, hd⟩
  · unfold count_releases
    rw [ha]
    rfl
  · unfold count_releases
    rw [hd]
    rfl

/-- C9 (implicit): a text input containing an interior NUL byte makes
`from_json`, `from_xml` and `from_openstep` return `Err(Error::InvalidArg)`
without invoking the foreign decoder, whatever that decoder would do. -/
theorem nul_input_invalid_arg :
    ∀ (s : String) (dec1 dec2 dec3 : ForeignDecoder), has_nul s = true →
      from_json dec1 s = (.error Error.InvalidArg, false) ∧
      from_xml dec2 s = (.error Error.InvalidArg, false) ∧
      from_openstep dec3 s = (.error Error.InvalidArg, false) := by
  intro s dec1 dec2 dec3 h
  refine ⟨?_, ?_, ?_⟩ <;>
    simp [from_json, from_xml, from_openstep, decode_text, h]

/-- A concrete string with an interior NUL byte. -/
def nul_string : String := String.mk [Char.ofNat 97, Char.ofNat 0, Char.ofNat 98]

/-- A concrete stand-in foreign decoder that always succeeds. -/
def sample_decoder : ForeignDecoder := fun _ => (0, (0, .nullC))

/-- C9 witness: the NUL-containing input hits the early error in all three
entry points without the decoder being invoked. -/
theorem nul_input_invalid_arg_witness :
    has_nul nul_string = true ∧
    from_json sample_decoder nul_string = (.error Error.InvalidArg, false) ∧
    from_xml sample_decoder nul_string = (.error Error.InvalidArg, false) ∧
    from_openstep sample_decoder nul_string =
      (.error Error.InvalidArg, false) := by
  have h : has_nul nul_string = true := by decide
  obtain ⟨a, b, c⟩ :=
    nul_input_invalid_arg nul_string sample_decoder sample_decoder
      sample_decoder h
  exact ⟨h, a, b, c⟩

end PlistPlus2
